import Mathlib

/-!
Verification of the py2tex environment-composition and serialization engine.

This file gives a shallow embedding of the two serialization cores of the
repository and proves properties of them:

* `src/py2tex/tex_base.py`: the `TexObject` / `TexEnvironment` classes, whose
  `build` performs a post-order traversal joining child contributions with
  newlines and merging each child's `packages` dict into the parent's
  (`dict.update` semantics, last writer wins).

* `src/py2tex/document.py`: the standalone `TexEnvironment`, `Document`,
  `Tabular` classes, including `Document.build` (preamble rendering),
  `Document.add_package`, `Document.set_margins`, `Tabular.build` and
  `Tabular.build_rule`.

Python dicts are embedded as insertion-ordered association lists with
`dict.__setitem__` / `dict.update` semantics (`dictInsert` / `dictUpdate`).
Python floats are embedded as dyadic rationals `mant * 2 ^ exp`.
-/

/-! ## Insertion-ordered dictionaries (Python `dict` semantics) -/

/-- `d[k] = v` on an insertion-ordered dict: if the key is present its value is
replaced in place (position kept), otherwise the pair is appended at the end. -/
def dictInsert {α : Type} (m : List (String × α)) (k : String) (v : α) :
    List (String × α) :=
  match m with
  | [] => [(k, v)]
  | kv :: rest => if kv.1 = k then (k, v) :: rest else kv :: dictInsert rest k v

/-- `d.update(u)`: insert every pair of `u` into `m`, in order. -/
def dictUpdate {α : Type} (m u : List (String × α)) : List (String × α) :=
  u.foldl (fun acc kv => dictInsert acc kv.1 kv.2) m

/-- `d[k]` as an option: the value of the first entry with key `k`. -/
def lookupKey {α : Type} (k : String) (m : List (String × α)) : Option α :=
  (m.find? (fun kv => kv.1 = k)).map Prod.snd

/-- Number of entries with key `k` (1 for a well-formed dict containing `k`). -/
def countKey {α : Type} (k : String) (m : List (String × α)) : Nat :=
  (m.filter (fun kv => kv.1 = k)).length

/-- The value of the last entry with key `k`, if any: the value that survives
when the entries of `m` are inserted into a dict one by one. -/
def lastEntry {α : Type} (k : String) (m : List (String × α)) : Option α :=
  (m.reverse.find? (fun kv => kv.1 = k)).map Prod.snd

/-- Given a list of dicts merged left to right into some accumulator, the value
of key `k` contributed by the list: the last dict containing `k` wins. -/
def lastDeclared {α : Type} (k : String) : List (List (String × α)) → Option α
  | [] => none
  | m :: rest =>
      match lastDeclared k rest with
      | some v => some v
      | none => lastEntry k m

/-! ## Embedding of `src/py2tex/tex_base.py` -/

/-- The value part of one `packages` entry in `tex_base.py`: the kwoptions dict
of the package (`add_package` stores positional options as keys mapped to `''`). -/
abbrev PkgOpts := List (String × String)

/-- The package registry of a `TexObject`: package name mapped to its options. -/
abbrev Packages := List (String × PkgOpts)

/-- The scalar state of a `tex_base.TexEnvironment` (all attributes except the
`body` list): `name`, `head`, `tail`, `parameters`, `options`, `kwoptions`,
`label`, `label_pos` and the `packages` registry.  The constructor initialises
`head = [\begin{env_name}]` and `tail = [\end{env_name}]`; here the fields are
kept general, claims add the standard shape as a hypothesis where they need it.
Keyword-option values appear after Python's `str()` was applied, hence `String`. -/
structure EnvData where
  name : String
  head : List String
  tail : List String
  parameters : List String
  options : List String
  kwoptions : List (String × String)
  label : String
  label_pos : String
  packages : Packages
deriving DecidableEq

/-- A node of a `tex_base` body list: a plain string or a nested environment
(`TexEnvironment` with its scalar data and its own body list). -/
inductive TexNode : Type where
  | text (s : String)
  | env (d : EnvData) (body : List TexNode)

/-- `tex_base.TexObject.add_package`: `kwoptions.update({o: '' for o in options})`
then `self.packages[package] = kwoptions`. -/
def TexObject.add_package (d : EnvData) (package : String) (options : List String)
    (kwoptions : List (String × String)) : EnvData :=
  let kw := dictUpdate kwoptions (options.map (fun o => (o, "")))
  { d with packages := dictInsert d.packages package kw }

/-- The bracket content computed by `TexEnvironment.build` (tex_base.py lines
142-146): kwoptions joined as `k=v` with `', '`, options joined with `', '`,
and `', '` between the two groups only when both joined strings are non-empty
(Python tests the truthiness of the joined strings). -/
def optionsString (options : List String) (kwoptions : List (String × String)) :
    String :=
  let kws := String.intercalate ", " (kwoptions.map (fun kv => kv.1 ++ "=" ++ kv.2))
  let opts := String.intercalate ", " options
  let opts := if kws ≠ "" ∧ opts ≠ "" then opts ++ ", " else opts
  opts ++ kws

/-- `head[0] += suffix` on a list of lines (the head list is non-empty whenever
the constructor produced it). -/
def appendToFirst (xs : List String) (suffix : String) : List String :=
  match xs with
  | [] => []
  | h :: t => (h ++ suffix) :: t

/-- Lines 141-148 of tex_base.py applied to a single head line: append the
bracketed option list when `options` or `kwoptions` is non-empty (truthiness of
the collections), then the brace-delimited parameter list when `parameters` is
non-empty. -/
def TexEnvironment.buildHeadLine (d : EnvData) (h : String) : String :=
  let h := if d.options ≠ [] ∨ d.kwoptions ≠ [] then
    h ++ "[" ++ optionsString d.options d.kwoptions ++ "]" else h
  if d.parameters ≠ [] then
    h ++ "\x7b" ++ String.intercalate ", " d.parameters ++ "\x7d" else h

/-- Lines 138, 141-148 of tex_base.py: copy `self.head` and decorate its first
line with the option and parameter lists. -/
def TexEnvironment.buildHead (d : EnvData) : List String :=
  let head := if d.options ≠ [] ∨ d.kwoptions ≠ [] then
    appendToFirst d.head ("[" ++ optionsString d.options d.kwoptions ++ "]")
    else d.head
  if d.parameters ≠ [] then
    appendToFirst head ("\x7b" ++ String.intercalate ", " d.parameters ++ "\x7d")
    else head

/-- The label directive of tex_base.py line 151: `\label{name:label}`. -/
def labelDirective (d : EnvData) : String :=
  "\\label\x7b" ++ d.name ++ ":" ++ d.label ++ "\x7d"

/-- Lines 150-155 of tex_base.py: when `label` is non-empty, append the label
directive to the head when `label_pos == 'top'`, otherwise insert it at the
front of the tail. -/
def applyLabel (d : EnvData) (head tail : List String) :
    List String × List String :=
  if d.label ≠ "" then
    if d.label_pos = "top" then (head ++ [labelDirective d], tail)
    else (head, labelDirective d :: tail)
  else (head, tail)

mutual
/-- The loop of `TexObject.build` (tex_base.py lines 72-76) over a body list.
Returns the built contribution strings, the post-build body (environments keep
their merged packages), and the post-build `packages` dict of each environment
child in order (text children are not `TexObject`s and contribute none). -/
def buildList : List TexNode → List String × List TexNode × List Packages
  | [] => ([], [], [])
  | TexNode.text s :: rest =>
      let r := buildList rest
      (s :: r.1, TexNode.text s :: r.2.1, r.2.2)
  | TexNode.env d body :: rest =>
      let c := buildEnvParts d body
      let r := buildList rest
      (String.intercalate "\n" c.1 :: r.1,
        TexNode.env c.2.1 c.2.2 :: r.2.1,
        c.2.1.packages :: r.2.2)

/-- `TexEnvironment.build` (tex_base.py lines 133-158) producing the `tex` list
of line 157 together with the post-build state: decorate the head, place the
label, build the body via the inherited `TexObject.build` (joining child
contributions with newlines and merging each environment child's packages into
`self.packages` in child order), and assemble `head + [body] + tail`, dropping
the body element when the joined body string is empty. -/
def buildEnvParts : EnvData → List TexNode → List String × EnvData × List TexNode
  | d, body =>
      let hf := applyLabel d (TexEnvironment.buildHead d) d.tail
      let r := buildList body
      let packages2 := List.foldl dictUpdate d.packages r.2.2
      let bodyStr := String.intercalate "\n" r.1
      let tex := if bodyStr = "" then hf.1 ++ hf.2 else hf.1 ++ [bodyStr] ++ hf.2
      (tex, { d with packages := packages2 }, r.2.1)
end

/-- `TexEnvironment.build`: the returned string is the newline-join of the
`tex` list; the environment state after the call is returned alongside. -/
def TexEnvironment.build (d : EnvData) (body : List TexNode) :
    String × EnvData × List TexNode :=
  let r := buildEnvParts d body
  (String.intercalate "\n" r.1, r.2.1, r.2.2)

/-! ## Embedding of `src/py2tex/document.py` -/

/-- A node of a `document.py` body list: a string or a nested
`document.TexEnvironment` (head and tail are single strings there, options and
parameters having been baked into the head by the constructor). -/
inductive DNode : Type where
  | text (s : String)
  | env (head tail : String) (body : List DNode)

mutual
/-- The loop of `document.TexEnvironment.build` (document.py lines 51-55): each
environment child is built and replaced by its built string; plain strings pass
through.  No packages are read or merged anywhere in this traversal. -/
def dbodyList : List DNode → List String
  | [] => []
  | DNode.text s :: rest => s :: dbodyList rest
  | DNode.env h t b :: rest => docEnvBuild h t b :: dbodyList rest

/-- `document.TexEnvironment.build` (document.py lines 50-59): the body string
`'\n'.join([head] + body + [tail])` that the method stores into `self.body`. -/
def docEnvBuild : String → String → List DNode → String
  | h, t, b => String.intercalate "\n" (h :: (dbodyList b ++ [t]))
end

/-- The state of a `document.Document`: the `header` list (document-class line),
the `packages` dict (name mapped to its already-rendered option string), the
`margins` dict, and the `document` environment's head, tail and body. -/
structure Doc where
  header : List String
  packages : List (String × String)
  margins : List (String × String)
  env_head : String
  env_tail : String
  body : List DNode

/-- The preamble produced by the loop of `Document.build` (document.py lines
107-111): the incoming `header` followed by one
`\usepackage[options]{package}` line per entry of the `packages` dict as it
stands when `build` is called, options bracketed only when non-empty. -/
def Document.preambleLines (d : Doc) : List String :=
  d.header ++ d.packages.map (fun kv =>
    "\\usepackage" ++ (if kv.2 ≠ "" then "[" ++ kv.2 ++ "]" else "")
      ++ "\x7b" ++ kv.1 ++ "\x7d")

/-- `Document.build` (document.py lines 106-115): the text handed to
`self.file.save`, namely the joined preamble followed by the built body. -/
def Document.build (d : Doc) : String :=
  String.intercalate "\n" (Document.preambleLines d) ++ "\n"
    ++ docEnvBuild d.env_head d.env_tail d.body

/-- The three phases of `Document.build`. -/
inductive BuildPhase : Type where
  | renderPreamble
  | buildBody
  | saveFile
deriving DecidableEq, BEq

/-- The order in which `Document.build` (document.py lines 106-115) runs its
phases: the `\usepackage` preamble loop and the `self.header` join (lines
107-111) execute first, `super().build()` (line 113) builds the body second,
and `self.file.save(...)` (line 114) runs last. -/
def Document.buildPhases : List BuildPhase :=
  [BuildPhase.renderPreamble, BuildPhase.buildBody, BuildPhase.saveFile]

/-- `Document.add_package` (document.py lines 88-93).  The positional options
are joined and bracketed into the *string* `options`; when any keyword option
is supplied the code then calls `options.append(...)` on that string, which
raises `AttributeError`.  Otherwise the option string is stored for `package`. -/
def Document.add_package (d : Doc) (package : String) (options : List String)
    (kwoptions : List (String × String)) : Except String Doc :=
  let optionsStr := if options ≠ [] then
    "[" ++ String.intercalate "," options ++ "]" else ""
  if kwoptions ≠ [] then
    Except.error "AttributeError: str object has no attribute append"
  else
    Except.ok { d with packages := dictInsert d.packages package optionsStr }

/-- `Document.set_margins` (document.py lines 95-104): build the margins dict
`{top: margins, bottom: margins, margin: margins}`, overriding `top` and
`bottom` when given, and store its `key=value` comma-join as the sole option
string of the `geometry` package. -/
def Document.set_margins (d : Doc) (margins : String)
    (top bottom : Option String) : Doc :=
  let ms := [("top", margins), ("bottom", margins), ("margin", margins)]
  let ms := match top with
    | some t => dictInsert ms "top" t
    | none => ms
  let ms := match bottom with
    | some b => dictInsert ms "bottom" b
    | none => ms
  { d with
    margins := ms,
    packages := dictInsert d.packages "geometry"
      (String.intercalate "," (ms.map (fun kv => kv.1 ++ "=" ++ kv.2))) }

/-! ## Embedding of `document.Tabular` -/

/-- A cell of the tabular grid.  Python floats are embedded as dyadic rationals
`mant * 2 ^ exp` (the exact value set of binary floating point); integers and
strings are the other cell types exercised by the repository. -/
inductive Cell : Type where
  | pfloat (mant exp : Int)
  | pint (n : Int)
  | pstr (s : String)
deriving DecidableEq

/-- Round `m / 2 ^ k` to the nearest integer, ties to even (the rounding of
Python's fixed-point float formatting). -/
def roundHalfEvenDiv (m : Int) (k : Nat) : Int :=
  let d : Int := 2 ^ k
  let q := Int.fdiv m d
  let r := m - q * d
  if 2 * r < d then q else if d < 2 * r then q + 1
  else if q % 2 = 0 then q else q + 1

/-- Left-pad a digit string with zeros to the given length. -/
def leftPadZeros (len : Nat) (s : String) : String :=
  String.mk (List.replicate (len - s.length) '0') ++ s

/-- Python `format(v, '.<prec>f')` on the dyadic float `mant * 2 ^ exp`:
round `v * 10 ^ prec` half-to-even to an integer and print it with `prec`
digits after the decimal point, with the sign taken from the value. -/
def formatFixedDyadic (prec : Nat) (mant exp : Int) : String :=
  let scaled := mant * (10 : Int) ^ prec
  let n : Int := if 0 ≤ exp then scaled * (2 : Int) ^ exp.toNat
    else roundHalfEvenDiv scaled (-exp).toNat
  let sign := if mant < 0 then "-" else ""
  let a := n.natAbs
  let ip := a / 10 ^ prec
  let fp := a % 10 ^ prec
  if prec = 0 then sign ++ toString ip
  else sign ++ toString ip ++ "." ++ leftPadZeros prec (toString fp)

/-- Accumulate a decimal digit string into a number. -/
def digitsToNat : Nat → List Char → Option Nat
  | acc, [] => some acc
  | acc, c :: cs =>
      if '0' ≤ c ∧ c ≤ '9' then
        digitsToNat (acc * 10 + (c.toNat - '0'.toNat)) cs
      else none

/-- Parse a Python fixed-point format spec of the shape `.Nf` (the shape the
repository uses, default `'.2f'`) into its precision. -/
def parseFixedFormat (fmt : String) : Option Nat :=
  match fmt.data with
  | '.' :: rest =>
      match rest.reverse with
      | 'f' :: revDigits => digitsToNat 0 revDigits.reverse
      | _ => none
  | _ => none

/-- `'{value:<float_format>}'.format(value=value)` of document.py line 207 for
the fixed-point format specs the repository uses. -/
def pyFormatFloat (fmt : String) (mant exp : Int) : String :=
  match parseFixedFormat fmt with
  | some prec => formatFixedDyadic prec mant exp
  | none => ""

/-- The cell-formatting pass of `Tabular.build` (document.py lines 204-210):
a float cell is formatted with the configured `float_format`, every other cell
is converted with `str`. -/
def formatCell (fmt : String) : Cell → String
  | Cell.pfloat m e => pyFormatFloat fmt m e
  | Cell.pint n => toString n
  | Cell.pstr s => s

/-- The state of a `document.Tabular` node: head and tail strings (as left by
the constructor chain), the body list already holding strings, the grid shape,
the cell grid (`data`, whose dimensions equal `shape` by construction), the
`rules` dict mapping a row index to `(col_start, col_end, trim)`, and the
float format string. -/
structure Tabular where
  head : String
  tail : String
  body : List String
  shape : Nat × Nat
  data : List (List Cell)
  rules : List (Nat × (Option Int × Option Int × String))
  float_format : String

/-- Resolution of one slice bound against length `n`, exactly as
`slice(start, end).indices(n)` resolves it for step 1: negative indices count
from the end and clamp at 0, non-negative ones clamp at `n`. -/
def sliceResolve (n : Nat) (i : Int) : Int :=
  if i < 0 then max (i + n) 0 else min i n

/-- `slice(col_start, col_end).indices(ncols)` for step 1: a missing start
defaults to 0, a missing end to `ncols`. -/
def sliceIndices (col_start col_end : Option Int) (n : Nat) : Int × Int :=
  (match col_start with
    | none => 0
    | some i => sliceResolve n i,
   match col_end with
    | none => (n : Int)
    | some j => sliceResolve n j)

/-- `Tabular.build_rule` (document.py lines 188-197): a full-width `\midrule`
when both bounds are `None` and no trim was requested, otherwise a `\cmidrule`
with the optional trim spec and the slice-resolved column range printed as
`start+1`-`end`. -/
def Tabular.build_rule (ncols : Nat) (col_start col_end : Option Int)
    (trim : String) : String :=
  if col_start = none ∧ col_end = none ∧ trim = "" then "\\midrule"
  else
    let rule := "\\cmidrule"
    let rule := if trim ≠ "" then rule ++ "(" ++ trim ++ ")" else rule
    let se := sliceIndices col_start col_end ncols
    rule ++ "\x7b" ++ toString (se.1 + 1) ++ "-" ++ toString se.2 ++ "\x7d"

/-- `self.rules` dict access: the rule registered for row `i`, if any. -/
def lookupRule (rules : List (Nat × (Option Int × Option Int × String)))
    (i : Nat) : Option (Option Int × Option Int × String) :=
  (rules.find? (fun kv => kv.1 = i)).map Prod.snd

/-- The row loop of `Tabular.build` (document.py lines 212-217): for each
(already formatted) row, emit the cells joined by `' & '` with the `\\` row
terminator, followed by the row's rule directive when one is registered. -/
def tabularRowLines (ncols : Nat)
    (rules : List (Nat × (Option Int × Option Int × String))) :
    Nat → List (List String) → List String
  | _, [] => []
  | i, row :: rest =>
      (String.intercalate " & " row ++ "\\\\")
        :: ((match lookupRule rules i with
              | some r => [Tabular.build_rule ncols r.1 r.2.1 r.2.2]
              | none => [])
            ++ tabularRowLines ncols rules (i + 1) rest)

/-- `Tabular.build` (document.py lines 199-219): decorate head with the column
spec and `\toprule`, prefix the tail with `\bottomrule`, format every cell
(floats through `float_format`, everything else through `str`), append the row
lines (and rule lines) to the body, and join as the inherited build does. -/
def Tabular.build (t : Tabular) : String :=
  let col := t.shape.2
  let head := t.head ++ "\x7b" ++ String.mk (List.replicate col 'c')
    ++ "\x7d\n\\toprule"
  let tail := "\\bottomrule\n" ++ t.tail
  let fdata := t.data.map (fun row => row.map (formatCell t.float_format))
  let rows := tabularRowLines t.shape.2 t.rules 0 fdata
  String.intercalate "\n" (head :: (t.body ++ rows ++ [tail]))

/-! ## Dictionary lemmas -/

/-- Whether some entry of `m` has key `k`. -/
def hasKey {α : Type} (k : String) (m : List (String × α)) : Bool :=
  m.any (fun kv => kv.1 = k)

theorem dictInsert_cons {α : Type} (k1 : String) (v1 : α)
    (rest : List (String × α)) (k : String) (v : α) :
    dictInsert ((k1, v1) :: rest) k v
      = if k1 = k then (k, v) :: rest else (k1, v1) :: dictInsert rest k v := rfl

theorem lookupKey_cons {α : Type} (k k1 : String) (v1 : α)
    (rest : List (String × α)) :
    lookupKey k ((k1, v1) :: rest) = if k1 = k then some v1 else lookupKey k rest := by
  by_cases h : k1 = k <;> simp [lookupKey, List.find?, h]

theorem countKey_cons {α : Type} (k k1 : String) (v1 : α)
    (rest : List (String × α)) :
    countKey k ((k1, v1) :: rest)
      = (if k1 = k then 1 else 0) + countKey k rest := by
  by_cases h : k1 = k <;> simp [countKey, List.filter_cons, h] <;> omega

theorem lastEntry_cons {α : Type} (p k : String) (v : α)
    (rest : List (String × α)) :
    lastEntry p ((k, v) :: rest)
      = match lastEntry p rest with
        | some w => some w
        | none => if k = p then some v else none := by
  simp only [lastEntry, List.reverse_cons, List.find?_append]
  cases hfind : List.find? (fun kv => decide (kv.1 = p)) rest.reverse with
  | none => by_cases hk : k = p <;> simp [List.find?, hk, Option.or]
  | some w => simp [hfind, Option.or]

theorem lookupKey_dictInsert_self {α : Type} (m : List (String × α)) (k : String)
    (v : α) : lookupKey k (dictInsert m k v) = some v := by
  induction m with
  | nil => simp [dictInsert, lookupKey]
  | cons kv rest ih =>
    obtain ⟨k1, v1⟩ := kv
    by_cases h : k1 = k
    · subst h
      rw [dictInsert_cons, if_pos rfl, lookupKey_cons, if_pos rfl]
    · rw [dictInsert_cons, if_neg h, lookupKey_cons, if_neg h]
      exact ih

theorem lookupKey_dictInsert_ne {α : Type} (m : List (String × α))
    (p k : String) (v : α) (hpk : p ≠ k) :
    lookupKey p (dictInsert m k v) = lookupKey p m := by
  induction m with
  | nil => simp [dictInsert, lookupKey, List.find?, Ne.symm hpk]
  | cons kv rest ih =>
    obtain ⟨k1, v1⟩ := kv
    by_cases h : k1 = k
    · subst h
      rw [dictInsert_cons, if_pos rfl, lookupKey_cons, lookupKey_cons,
        if_neg (Ne.symm hpk), if_neg (Ne.symm hpk)]
    · rw [dictInsert_cons, if_neg h, lookupKey_cons, lookupKey_cons]
      by_cases h2 : k1 = p
      · rw [if_pos h2, if_pos h2]
      · rw [if_neg h2, if_neg h2]
        exact ih

theorem countKey_dictInsert_self {α : Type} (m : List (String × α)) (k : String)
    (v : α) :
    countKey k (dictInsert m k v)
      = if countKey k m = 0 then 1 else countKey k m := by
  induction m with
  | nil => simp [dictInsert, countKey]
  | cons kv rest ih =>
    obtain ⟨k1, v1⟩ := kv
    by_cases h : k1 = k
    · subst h
      rw [dictInsert_cons, if_pos rfl, countKey_cons, if_pos rfl,
        countKey_cons, if_pos rfl, if_neg (by omega)]
    · rw [dictInsert_cons, if_neg h, countKey_cons, if_neg h,
      countKey_cons, if_neg h, ih]
      simp only [Nat.zero_add]

theorem countKey_dictInsert_ne {α : Type} (m : List (String × α)) (p k : String)
    (v : α) (hpk : p ≠ k) : countKey p (dictInsert m k v) = countKey p m := by
  induction m with
  | nil => simp [dictInsert, countKey, List.filter, Ne.symm hpk]
  | cons kv rest ih =>
    obtain ⟨k1, v1⟩ := kv
    by_cases h : k1 = k
    · subst h
      rw [dictInsert_cons, if_pos rfl, countKey_cons, countKey_cons,
        if_neg (Ne.symm hpk)]
    · rw [dictInsert_cons, if_neg h, countKey_cons, countKey_cons, ih]

theorem countKey_dictInsert_le_one {α : Type} (m : List (String × α))
    (p k : String) (v : α) (h : countKey p m ≤ 1) :
    countKey p (dictInsert m k v) ≤ 1 := by
  by_cases hpk : p = k
  · subst hpk
    rw [countKey_dictInsert_self]
    split <;> omega
  · rw [countKey_dictInsert_ne m p k v hpk]
    exact h

theorem dictUpdate_cons {α : Type} (m : List (String × α)) (k : String) (v : α)
    (rest : List (String × α)) :
    dictUpdate m ((k, v) :: rest) = dictUpdate (dictInsert m k v) rest := rfl

theorem countKey_dictUpdate_le_one {α : Type} (p : String)
    (u : List (String × α)) :
    ∀ m : List (String × α), countKey p m ≤ 1 →
      countKey p (dictUpdate m u) ≤ 1 := by
  induction u with
  | nil => intro m h; exact h
  | cons kv rest ih =>
    intro m h
    obtain ⟨k, v⟩ := kv
    rw [dictUpdate_cons]
    exact ih _ (countKey_dictInsert_le_one m p k v h)

theorem countKey_dictUpdate_pos {α : Type} (p : String)
    (u : List (String × α)) :
    ∀ m : List (String × α), 1 ≤ countKey p m →
      countKey p (dictUpdate m u) = countKey p m := by
  induction u with
  | nil => intro m _; rfl
  | cons kv rest ih =>
    intro m h
    obtain ⟨k, v⟩ := kv
    rw [dictUpdate_cons]
    by_cases hpk : p = k
    · subst hpk
      have hins : countKey p (dictInsert m p v) = countKey p m := by
        rw [countKey_dictInsert_self, if_neg (by omega)]
      rw [ih _ (by omega), hins]
    · have hins := countKey_dictInsert_ne m p k v hpk
      rw [ih _ (by rw [hins]; exact h), hins]

theorem countKey_dictUpdate_zero_mem {α : Type} (p : String)
    (u : List (String × α)) :
    ∀ m : List (String × α), countKey p m = 0 → hasKey p u = true →
      countKey p (dictUpdate m u) = 1 := by
  induction u with
  | nil => intro m _ hu; simp [hasKey] at hu
  | cons kv rest ih =>
    intro m hm hu
    obtain ⟨k, v⟩ := kv
    rw [dictUpdate_cons]
    by_cases hpk : p = k
    · subst hpk
      have hins : countKey p (dictInsert m p v) = 1 := by
        rw [countKey_dictInsert_self, if_pos hm]
      rw [countKey_dictUpdate_pos p rest _ (by omega), hins]
    · have hins := countKey_dictInsert_ne m p k v hpk
      have hrest : hasKey p rest = true := by
        simp only [hasKey, List.any_cons] at hu
        rcases Bool.or_eq_true_iff.mp hu with h1 | h1
        · exact absurd (of_decide_eq_true h1) (Ne.symm hpk)
        · exact h1
      exact ih _ (by rw [hins]; exact hm) hrest

theorem countKey_dictUpdate_zero_nomem {α : Type} (p : String)
    (u : List (String × α)) :
    ∀ m : List (String × α), countKey p m = 0 → hasKey p u = false →
      countKey p (dictUpdate m u) = 0 := by
  induction u with
  | nil => intro m hm _; exact hm
  | cons kv rest ih =>
    intro m hm hu
    obtain ⟨k, v⟩ := kv
    simp only [hasKey, List.any_cons, Bool.or_eq_false_iff] at hu
    have hkp : ¬k = p := by
      intro h
      simp [h] at hu
    rw [dictUpdate_cons]
    have hins := countKey_dictInsert_ne m p k v (fun h => hkp h.symm)
    exact ih _ (by rw [hins]; exact hm) hu.2

theorem lookupKey_dictUpdate {α : Type} (p : String) (u : List (String × α)) :
    ∀ m : List (String × α), countKey p m ≤ 1 →
      lookupKey p (dictUpdate m u)
        = match lastEntry p u with
          | some v => some v
          | none => lookupKey p m := by
  induction u with
  | nil =>
    intro m _
    simp [dictUpdate, lastEntry]
  | cons kv rest ih =>
    intro m hm
    obtain ⟨k, v⟩ := kv
    rw [dictUpdate_cons, ih _ (countKey_dictInsert_le_one m p k v hm),
      lastEntry_cons]
    cases hlast : lastEntry p rest with
    | some w => simp
    | none =>
      simp only
      by_cases hk : k = p
      · subst hk
        rw [if_pos rfl, lookupKey_dictInsert_self]
      · rw [if_neg hk, lookupKey_dictInsert_ne m p k v (fun h => hk h.symm)]

theorem countKey_foldl_dictUpdate_pos {α : Type} (p : String)
    (maps : List (List (String × α))) :
    ∀ init : List (String × α), 1 ≤ countKey p init →
      countKey p (List.foldl dictUpdate init maps) = countKey p init := by
  induction maps with
  | nil => intro init _; rfl
  | cons u rest ih =>
    intro init h
    rw [List.foldl_cons]
    have h1 : countKey p (dictUpdate init u) = countKey p init :=
      countKey_dictUpdate_pos p u init h
    rw [ih _ (by omega), h1]

theorem countKey_foldl_dictUpdate_zero_mem {α : Type} (p : String)
    (maps : List (List (String × α))) :
    ∀ init : List (String × α), countKey p init = 0 →
      (maps.any (fun u => hasKey p u)) = true →
      countKey p (List.foldl dictUpdate init maps) = 1 := by
  induction maps with
  | nil => intro init _ hm; simp at hm
  | cons u rest ih =>
    intro init h0 hm
    rw [List.foldl_cons]
    cases hu : hasKey p u with
    | true =>
      have h1 : countKey p (dictUpdate init u) = 1 :=
        countKey_dictUpdate_zero_mem p u init h0 hu
      rw [countKey_foldl_dictUpdate_pos p rest _ (by omega), h1]
    | false =>
      have h2 : countKey p (dictUpdate init u) = 0 :=
        countKey_dictUpdate_zero_nomem p u init h0 hu
      have hm2 : (rest.any (fun w => hasKey p w)) = true := by
        simp only [List.any_cons, hu, Bool.false_or] at hm
        exact hm
      exact ih _ h2 hm2

theorem lookupKey_foldl_dictUpdate {α : Type} (p : String)
    (maps : List (List (String × α))) :
    ∀ init : List (String × α), countKey p init ≤ 1 →
      lookupKey p (List.foldl dictUpdate init maps)
        = match lastDeclared p maps with
          | some v => some v
          | none => lookupKey p init := by
  induction maps with
  | nil =>
    intro init _
    simp [lastDeclared]
  | cons u rest ih =>
    intro init hinit
    rw [List.foldl_cons, ih _ (countKey_dictUpdate_le_one p u init hinit),
      lookupKey_dictUpdate p u init hinit]
    simp only [lastDeclared]
    cases lastDeclared p rest <;> cases lastEntry p u <;> simp

theorem hasKey_of_lastEntry_some {α : Type} (p : String)
    (u : List (String × α)) (v : α) (h : lastEntry p u = some v) :
    hasKey p u = true := by
  simp only [lastEntry, Option.map_eq_some'] at h
  obtain ⟨kv, hfind, _⟩ := h
  have hmem : kv ∈ u := by
    have := List.mem_of_find?_eq_some hfind
    simpa using this
  have hp := List.find?_some hfind
  simp only [hasKey, List.any_eq_true]
  exact ⟨kv, hmem, hp⟩

theorem lastDeclared_concat {α : Type} (p : String)
    (xs : List (List (String × α))) (u : List (String × α)) :
    lastDeclared p (xs ++ [u])
      = match lastEntry p u with
        | some v => some v
        | none => lastDeclared p xs := by
  induction xs with
  | nil =>
    simp only [List.nil_append, lastDeclared]
    cases lastEntry p u <;> simp
  | cons x rest ih =>
    simp only [List.cons_append, lastDeclared, List.append_eq]
    rw [ih]
    cases lastEntry p u <;> cases lastDeclared p rest <;> simp

/-! ## Build lemmas -/

theorem buildList_nil : buildList [] = ([], [], []) := by
  simp [buildList]

theorem buildList_cons_text (s : String) (rest : List TexNode) :
    buildList (TexNode.text s :: rest)
      = (s :: (buildList rest).1, TexNode.text s :: (buildList rest).2.1,
          (buildList rest).2.2) := by
  simp [buildList]

theorem buildList_cons_env (d : EnvData) (body rest : List TexNode) :
    buildList (TexNode.env d body :: rest)
      = (String.intercalate "\n" (buildEnvParts d body).1 :: (buildList rest).1,
          TexNode.env (buildEnvParts d body).2.1 (buildEnvParts d body).2.2
            :: (buildList rest).2.1,
          (buildEnvParts d body).2.1.packages :: (buildList rest).2.2) := by
  simp [buildList]

theorem buildEnvParts_eq (d : EnvData) (b : List TexNode) :
    buildEnvParts d b
      = (if String.intercalate "\n" (buildList b).1 = "" then
            (applyLabel d (TexEnvironment.buildHead d) d.tail).1
              ++ (applyLabel d (TexEnvironment.buildHead d) d.tail).2
          else
            (applyLabel d (TexEnvironment.buildHead d) d.tail).1
              ++ [String.intercalate "\n" (buildList b).1]
              ++ (applyLabel d (TexEnvironment.buildHead d) d.tail).2,
         { d with packages := List.foldl dictUpdate d.packages (buildList b).2.2 },
         (buildList b).2.1) := by
  simp [buildEnvParts]

theorem buildEnvParts_snd_fst (d : EnvData) (b : List TexNode) :
    (buildEnvParts d b).2.1
      = { d with packages := List.foldl dictUpdate d.packages (buildList b).2.2 } := by
  rw [buildEnvParts_eq]

theorem buildEnvParts_snd_snd (d : EnvData) (b : List TexNode) :
    (buildEnvParts d b).2.2 = (buildList b).2.1 := by
  rw [buildEnvParts_eq]

theorem buildEnvParts_fst_packages (d : EnvData) (p : Packages)
    (b : List TexNode) :
    (buildEnvParts { d with packages := p } b).1 = (buildEnvParts d b).1 := by
  rw [buildEnvParts_eq { d with packages := p } b, buildEnvParts_eq d b]
  rfl

theorem buildList_append (a b : List TexNode) :
    buildList (a ++ b)
      = ((buildList a).1 ++ (buildList b).1,
          (buildList a).2.1 ++ (buildList b).2.1,
          (buildList a).2.2 ++ (buildList b).2.2) := by
  induction a with
  | nil => simp [buildList_nil]
  | cons hd tl ih =>
    cases hd with
    | text s =>
      rw [List.cons_append, buildList_cons_text, buildList_cons_text, ih]
      simp
    | env d body =>
      rw [List.cons_append, buildList_cons_env, buildList_cons_env, ih]
      simp

theorem buildList_fst_stable :
    ∀ (n : Nat) (b : List TexNode), sizeOf b ≤ n →
      (buildList (buildList b).2.1).1 = (buildList b).1 := by
  intro n
  induction n with
  | zero =>
    intro b hb
    cases b with
    | nil => simp [buildList_nil]
    | cons hd tl =>
      exfalso
      have h1 : 1 ≤ sizeOf (hd :: tl) := by
        simp only [List.cons.sizeOf_spec]
        omega
      omega
  | succ n ih =>
    intro b hb
    cases b with
    | nil => simp [buildList_nil]
    | cons hd tl =>
      cases hd with
      | text s =>
        have htl : sizeOf tl ≤ n := by
          simp only [List.cons.sizeOf_spec, TexNode.text.sizeOf_spec] at hb
          omega
        rw [buildList_cons_text s tl]
        dsimp only
        rw [buildList_cons_text s (buildList tl).2.1]
        dsimp only
        rw [ih tl htl]
      | env d body =>
        have htl : sizeOf tl ≤ n := by
          simp only [List.cons.sizeOf_spec, TexNode.env.sizeOf_spec] at hb
          omega
        have hbody : sizeOf body ≤ n := by
          simp only [List.cons.sizeOf_spec, TexNode.env.sizeOf_spec] at hb
          omega
        rw [buildList_cons_env d body tl]
        dsimp only
        rw [buildList_cons_env (buildEnvParts d body).2.1 (buildEnvParts d body).2.2
          (buildList tl).2.1]
        dsimp only
        rw [ih tl htl]
        have hchild : (buildEnvParts (buildEnvParts d body).2.1
            (buildEnvParts d body).2.2).1 = (buildEnvParts d body).1 := by
          rw [buildEnvParts_snd_fst d body, buildEnvParts_snd_snd d body,
            buildEnvParts_fst_packages d
              (List.foldl dictUpdate d.packages (buildList body).2.2)
              (buildList body).2.1,
            buildEnvParts_eq d (buildList body).2.1, buildEnvParts_eq d body]
          dsimp only
          rw [ih body hbody]
        rw [hchild]

theorem texEnvBuild_fst (d : EnvData) (b : List TexNode) :
    (TexEnvironment.build d b).1 = String.intercalate "\n" (buildEnvParts d b).1 := rfl

theorem texEnvBuild_snd_fst (d : EnvData) (b : List TexNode) :
    (TexEnvironment.build d b).2.1 = (buildEnvParts d b).2.1 := rfl

theorem texEnvBuild_snd_snd (d : EnvData) (b : List TexNode) :
    (TexEnvironment.build d b).2.2 = (buildEnvParts d b).2.2 := rfl

theorem buildHead_singleton (d : EnvData) (h0 : String) (hh : d.head = [h0]) :
    TexEnvironment.buildHead d = [TexEnvironment.buildHeadLine d h0] := by
  unfold TexEnvironment.buildHead TexEnvironment.buildHeadLine
  rw [hh]
  by_cases h1 : d.options ≠ [] ∨ d.kwoptions ≠ [] <;>
    by_cases h2 : d.parameters ≠ [] <;>
      simp only [h1, h2, if_true, if_false, ite_true, ite_false, appendToFirst,
        not_true, not_false_iff, String.append_assoc] <;>
      simp [h1, h2]

theorem optionsString_spec (options : List String)
    (kwoptions : List (String × String)) :
    optionsString options kwoptions
      = (if String.intercalate ", " options ≠ ""
            ∧ String.intercalate ", " (kwoptions.map (fun kv => kv.1 ++ "=" ++ kv.2)) ≠ ""
          then String.intercalate ", " options ++ ", "
          else String.intercalate ", " options)
        ++ String.intercalate ", " (kwoptions.map (fun kv => kv.1 ++ "=" ++ kv.2)) := by
  unfold optionsString
  by_cases h3 : String.intercalate ", " options = "" <;>
    by_cases h4 :
        String.intercalate ", " (kwoptions.map (fun kv => kv.1 ++ "=" ++ kv.2)) = "" <;>
      simp [h3, h4]

theorem buildHeadLine_spec (d : EnvData) (h0 : String) :
    TexEnvironment.buildHeadLine d h0
      = h0
        ++ (if d.options ≠ [] ∨ d.kwoptions ≠ [] then
              "[" ++ optionsString d.options d.kwoptions ++ "]"
            else "")
        ++ (if d.parameters ≠ [] then
              "\x7b" ++ String.intercalate ", " d.parameters ++ "\x7d" else "") := by
  unfold TexEnvironment.buildHeadLine
  by_cases h1 : d.options ≠ [] ∨ d.kwoptions ≠ [] <;>
    by_cases h2 : d.parameters ≠ [] <;>
      simp only [h1, h2, if_true, if_false, ite_true, ite_false,
        String.append_assoc, String.append_empty] <;>
      simp [h1, h2]

theorem buildEnvParts_fst_head (d : EnvData) (body : List TexNode) (h0 : String)
    (hh : d.head = [h0]) :
    (buildEnvParts d body).1.head? = some (TexEnvironment.buildHeadLine d h0) := by
  rw [buildEnvParts_eq, buildHead_singleton d h0 hh]
  unfold applyLabel
  by_cases hl : d.label ≠ ""
  · by_cases hp : d.label_pos = "top" <;>
      simp [hl, hp] <;> split <;> simp
  · simp [hl] <;> split <;> simp

theorem tabularRowLines_no_rules (ncols : Nat) (rows : List (List String)) :
    ∀ i : Nat,
      tabularRowLines ncols [] i rows
        = rows.map (fun row => String.intercalate " & " row ++ "\\\\") := by
  induction rows with
  | nil => intro i; simp [tabularRowLines]
  | cons r rest ih =>
    intro i
    simp [tabularRowLines, lookupRule, ih (i + 1)]

/-! ## Sample states used as witnesses -/

/-- A sample `Document` state (document.py `Document.__init__` shape): the
document-class line, the default packages, and an empty body. -/
def sampleDoc : Doc :=
  { header := ["\\documentclass[12pt]\x7barticle\x7d"],
    packages := [("inputenc", "utf8"), ("geometry", "")],
    margins := [("top", "2.5cm"), ("bottom", "2.5cm"), ("margin", "2.5cm")],
    env_head := "\\begin\x7bdocument\x7d",
    env_tail := "\\end\x7bdocument\x7d",
    body := [] }

/-- A `tex_base` environment state with no packages, as the constructor leaves
it for `TexEnvironment('sec')`. -/
def envRootC2 : EnvData :=
  { name := "sec", head := ["\\begin\x7bsec\x7d"], tail := ["\\end\x7bsec\x7d"],
    parameters := [], options := [], kwoptions := [], label := "",
    label_pos := "top", packages := [] }

/-- A subtree root that declared package `P` with option set `opt1`. -/
def envChildA : EnvData :=
  { name := "figA", head := ["\\begin\x7bfigA\x7d"], tail := ["\\end\x7bfigA\x7d"],
    parameters := [], options := [], kwoptions := [], label := "",
    label_pos := "top", packages := [("P", [("opt1", "")])] }

/-- A subtree root that declared package `P` with option set `opt2`. -/
def envChildB : EnvData :=
  { name := "figB", head := ["\\begin\x7bfigB\x7d"], tail := ["\\end\x7bfigB\x7d"],
    parameters := [], options := [], kwoptions := [], label := "",
    label_pos := "top", packages := [("P", [("opt2", "")])] }

/-- An environment with options, keyword options and a parameter. -/
def envOpts : EnvData :=
  { name := "test", head := ["\\begin\x7btest\x7d"], tail := ["\\end\x7btest\x7d"],
    parameters := ["p1"], options := ["12pt"], kwoptions := [("font", "small")],
    label := "", label_pos := "top", packages := [] }

/-- An `itemize` environment with no options and no label. -/
def envPlain : EnvData :=
  { name := "itemize", head := ["\\begin\x7bitemize\x7d"],
    tail := ["\\end\x7bitemize\x7d"], parameters := [], options := [],
    kwoptions := [], label := "", label_pos := "top", packages := [] }

/-- A `figure` environment carrying a label placed on top. -/
def envLabeled : EnvData :=
  { name := "figure", head := ["\\begin\x7bfigure\x7d"],
    tail := ["\\end\x7bfigure\x7d"], parameters := [], options := [],
    kwoptions := [], label := "myfig", label_pos := "top", packages := [] }

/-- A 2 by 2 tabular with a float, an integer and two strings, the default
`'.2f'` float format and no rules (the spec scenario of section 8). -/
def sampleTab : Tabular :=
  { head := "\\begin\x7btabular\x7d", tail := "\\end\x7btabular\x7d", body := [],
    shape := (2, 2),
    data := [[Cell.pfloat 3 (-1), Cell.pint 2], [Cell.pstr "A", Cell.pstr "B"]],
    rules := [], float_format := ".2f" }

theorem str_merge2 (a b c : String) (h : a ++ b = c) (z : String) :
    a ++ (b ++ z) = c ++ z := by
  rw [← String.append_assoc, h]

theorem str_merge3 (a b c d : String) (h : a ++ b ++ c = d) (z : String) :
    a ++ (b ++ (c ++ z)) = d ++ z := by
  rw [← String.append_assoc, ← String.append_assoc, h]

theorem margins_render (x y m : String) :
    "top" ++ ("=" ++ (x ++ ("," ++ ("bottom" ++ ("=" ++ (y ++ ("," ++ ("margin"
        ++ ("=" ++ m)))))))))
      = "top=" ++ (x ++ (",bottom=" ++ (y ++ (",margin=" ++ m)))) := by
  rw [str_merge3 "," "bottom" "=" ",bottom=" rfl,
    str_merge3 "," "margin" "=" ",margin=" rfl,
    str_merge2 "top" "=" "top=" rfl]

/-! ## Claim theorems -/

/-- Claim C1, counterexample: the claim states that `Document.build()` first
finishes building the entire body subtree and only then renders the preamble;
in document.py lines 106-115 the `\usepackage` preamble loop (lines 107-111)
runs before `super().build()` (line 113), so the body-build phase does not
precede the preamble-render phase. -/
theorem c1_counterexample :
    ¬ (Document.buildPhases.indexOf BuildPhase.buildBody
        < Document.buildPhases.indexOf BuildPhase.renderPreamble) := by
  decide

/-- Claim C1, amended: `Document.build()` renders the preamble first, from the
`packages` map as it stands when `build` is called, emitting the incoming
header followed by exactly one declaration line per entry of that map, and
only afterwards builds the body; the body build reads and merges no packages
(the preamble is independent of the body), so descendants' packages appear
in the preamble only because they were registered into the `Document`'s map
at construction time, not during the body build. -/
theorem c1_amended_preamble_first :
    Document.buildPhases
        = [BuildPhase.renderPreamble, BuildPhase.buildBody, BuildPhase.saveFile]
      ∧ (∀ d : Doc, Document.build d
          = String.intercalate "\n" (Document.preambleLines d) ++ "\n"
            ++ docEnvBuild d.env_head d.env_tail d.body)
      ∧ (∀ d : Doc, (Document.preambleLines d).length
          = d.header.length + d.packages.length)
      ∧ (∀ (d : Doc) (b : List DNode),
          Document.preambleLines { d with body := b } = Document.preambleLines d) := by
  refine ⟨rfl, fun d => rfl, fun d => ?_, fun d b => rfl⟩
  simp [Document.preambleLines]

/-- Claim C2: when two distinct subtrees each declare a package `P` (with
different option sets), the parent's `packages` map after `build` contains
exactly one entry for `P`, and its option set is the one of the subtree merged
last in the fixed child-order traversal (`dict.update` in body order:
last writer wins, no union of option sets). -/
theorem c2_last_writer_wins (d d1 d2 : EnvData) (pre b1 b2 : List TexNode)
    (P : String) (O1 O2 : PkgOpts)
    (hroot : countKey P d.packages = 0)
    (h1 : lastEntry P (buildEnvParts d1 b1).2.1.packages = some O1)
    (h2 : lastEntry P (buildEnvParts d2 b2).2.1.packages = some O2)
    (hne : O1 ≠ O2) :
    countKey P (buildEnvParts d
        (pre ++ [TexNode.env d1 b1, TexNode.env d2 b2])).2.1.packages = 1
      ∧ lookupKey P (buildEnvParts d
          (pre ++ [TexNode.env d1 b1, TexNode.env d2 b2])).2.1.packages
        = some O2 := by
  rw [buildEnvParts_snd_fst]
  have hsplit : (buildList (pre ++ [TexNode.env d1 b1, TexNode.env d2 b2])).2.2
      = (buildList pre).2.2
        ++ [(buildEnvParts d1 b1).2.1.packages,
            (buildEnvParts d2 b2).2.1.packages] := by
    rw [buildList_append, buildList_cons_env, buildList_cons_env, buildList_nil]
  rw [hsplit]
  have hk2 := hasKey_of_lastEntry_some P _ O2 h2
  constructor
  · apply countKey_foldl_dictUpdate_zero_mem P _ _ hroot
    simp [hk2]
  · rw [lookupKey_foldl_dictUpdate P _ _ (by omega)]
    have hconcat : (buildList pre).2.2
        ++ [(buildEnvParts d1 b1).2.1.packages,
            (buildEnvParts d2 b2).2.1.packages]
        = ((buildList pre).2.2 ++ [(buildEnvParts d1 b1).2.1.packages])
          ++ [(buildEnvParts d2 b2).2.1.packages] := by
      simp
    rw [hconcat, lastDeclared_concat, h2]

/-- Claim C2 witness: a root with two children both declaring package `P`,
built; the merged map holds one `P` entry carrying the second child's options. -/
theorem c2_witness :
    countKey "P" (buildEnvParts envRootC2
        ([] ++ [TexNode.env envChildA [], TexNode.env envChildB []])).2.1.packages = 1
      ∧ lookupKey "P" (buildEnvParts envRootC2
          ([] ++ [TexNode.env envChildA [], TexNode.env envChildB []])).2.1.packages
        = some [("opt2", "")] :=
  c2_last_writer_wins envRootC2 envChildA envChildB [] [] [] "P"
    [("opt1", "")] [("opt2", "")]
    (by decide)
    (by rw [buildEnvParts_snd_fst, buildList_nil]; decide)
    (by rw [buildEnvParts_snd_fst, buildList_nil]; decide)
    (by decide)

/-- Claim C3: with a standard single-line head, `build()` decorates the opening
marker with at most one bracketed list (options entries first, then kwOptions
entries rendered `key=value`, a comma between the two groups only when both
render non-empty) and at most one brace-delimited comma-joined parameter list;
empty collections contribute nothing to the head. -/
theorem c3_option_list (d : EnvData) (body : List TexNode) (h0 : String)
    (hh : d.head = [h0]) :
    (buildEnvParts d body).1.head?
      = some (h0
          ++ (if d.options ≠ [] ∨ d.kwoptions ≠ [] then
                "[" ++ ((if String.intercalate ", " d.options ≠ ""
                      ∧ String.intercalate ", "
                          (d.kwoptions.map (fun kv => kv.1 ++ "=" ++ kv.2)) ≠ ""
                    then String.intercalate ", " d.options ++ ", "
                    else String.intercalate ", " d.options)
                  ++ String.intercalate ", "
                      (d.kwoptions.map (fun kv => kv.1 ++ "=" ++ kv.2))) ++ "]"
              else "")
          ++ (if d.parameters ≠ [] then
                "\x7b" ++ String.intercalate ", " d.parameters ++ "\x7d"
              else "")) := by
  rw [buildEnvParts_fst_head d body h0 hh, buildHeadLine_spec d h0,
    optionsString_spec]

/-- Claim C3 witness: an environment with options `12pt`, keyword option
`font=small` and parameter `p1` renders the decorated opening marker. -/
theorem c3_witness :
    (buildEnvParts envOpts []).1.head?
      = some "\\begin\x7btest\x7d[12pt, font=small]\x7bp1\x7d" := by
  have h := c3_option_list envOpts [] "\\begin\x7btest\x7d" rfl
  rw [h]
  decide

/-- Claim C4: when the assembled body (the newline-join of the child
contributions) is empty, `build()` emits exactly the head lines followed by the
tail lines, with no blank line between them; when it is non-empty, the body
string sits strictly between head and tail. -/
theorem c4_empty_body_no_blank_line (d : EnvData) (body : List TexNode) :
    (String.intercalate "\n" (buildList body).1 = "" →
        (TexEnvironment.build d body).1
          = String.intercalate "\n"
              ((applyLabel d (TexEnvironment.buildHead d) d.tail).1
                ++ (applyLabel d (TexEnvironment.buildHead d) d.tail).2))
      ∧ (String.intercalate "\n" (buildList body).1 ≠ "" →
          (TexEnvironment.build d body).1
            = String.intercalate "\n"
                ((applyLabel d (TexEnvironment.buildHead d) d.tail).1
                  ++ [String.intercalate "\n" (buildList body).1]
                  ++ (applyLabel d (TexEnvironment.buildHead d) d.tail).2)) := by
  rw [texEnvBuild_fst, buildEnvParts_eq]
  constructor <;> intro h <;> simp [h]

/-- Claim C4 witness: an `itemize` environment with zero children builds to
head immediately followed by tail. -/
theorem c4_witness :
    (TexEnvironment.build envPlain []).1
      = String.intercalate "\n"
          ((applyLabel envPlain (TexEnvironment.buildHead envPlain) envPlain.tail).1
            ++ (applyLabel envPlain (TexEnvironment.buildHead envPlain) envPlain.tail).2) :=
  (c4_empty_body_no_blank_line envPlain []).1 (by rw [buildList_nil]; rfl)

/-- Claim C5: with a standard one-line head and tail, a non-empty label placed
`top` appears on the line immediately after the decorated opening marker, a
label placed `bottom` appears immediately before the closing marker, and an
environment without label emits no label directive line. -/
theorem c5_label_placement (d : EnvData) (body : List TexNode) (h0 t0 : String)
    (hh : d.head = [h0]) (ht : d.tail = [t0]) :
    (d.label ≠ "" → d.label_pos = "top" →
        (buildEnvParts d body).1
          = [TexEnvironment.buildHeadLine d h0, labelDirective d]
            ++ (if String.intercalate "\n" (buildList body).1 = "" then []
                else [String.intercalate "\n" (buildList body).1])
            ++ [t0])
      ∧ (d.label ≠ "" → d.label_pos = "bottom" →
          (buildEnvParts d body).1
            = [TexEnvironment.buildHeadLine d h0]
              ++ (if String.intercalate "\n" (buildList body).1 = "" then []
                  else [String.intercalate "\n" (buildList body).1])
              ++ [labelDirective d, t0])
      ∧ (d.label = "" →
          (buildEnvParts d body).1
            = [TexEnvironment.buildHeadLine d h0]
              ++ (if String.intercalate "\n" (buildList body).1 = "" then []
                  else [String.intercalate "\n" (buildList body).1])
              ++ [t0]) := by
  rw [buildEnvParts_eq, buildHead_singleton d h0 hh, ht]
  refine ⟨fun hl hp => ?_, fun hl hp => ?_, fun hl => ?_⟩
  · unfold applyLabel
    simp only [hl, hp, ne_eq, not_false_iff, if_true, ite_true]
    split <;> simp
  · unfold applyLabel
    simp only [hl, hp, ne_eq, not_false_iff, if_true, ite_true]
    split <;> simp
  · unfold applyLabel
    simp only [hl, ne_eq, not_true, if_false, ite_false]
    split <;> simp

/-- Claim C5 witness: a labeled `figure` environment with `label_pos = top`
places the label directive right after the opening marker. -/
theorem c5_witness :
    (buildEnvParts envLabeled []).1
      = [TexEnvironment.buildHeadLine envLabeled "\\begin\x7bfigure\x7d",
          labelDirective envLabeled]
        ++ (if String.intercalate "\n" (buildList ([] : List TexNode)).1 = ""
            then [] else [String.intercalate "\n" (buildList ([] : List TexNode)).1])
        ++ ["\\end\x7bfigure\x7d"] :=
  (c5_label_placement envLabeled [] "\\begin\x7bfigure\x7d" "\\end\x7bfigure\x7d"
    rfl rfl).1 (by decide) rfl

/-- Claim C6: `setMargins` stores, as the `geometry` package's sole option
string, the comma-joined `key=value` rendering of `top`, `bottom` and `margin`
(each defaulting to the uniform value, `top`/`bottom` individually overridable),
overwriting whatever option string the package had before (the result does not
depend on the prior entry); `setMargins("2.5cm")` yields
`top=2.5cm,bottom=2.5cm,margin=2.5cm`. -/
theorem c6_set_margins :
    (∀ (d : Doc) (m : String) (top bottom : Option String),
        lookupKey "geometry" (Document.set_margins d m top bottom).packages
          = some ("top=" ++ (top.getD m) ++ "," ++ "bottom=" ++ (bottom.getD m)
              ++ "," ++ "margin=" ++ m))
      ∧ (∀ d : Doc,
          lookupKey "geometry"
              (Document.set_margins d "2.5cm" none none).packages
            = some "top=2.5cm,bottom=2.5cm,margin=2.5cm") := by
  constructor
  · intro d m top bottom
    unfold Document.set_margins
    cases top <;> cases bottom <;>
      simp only [Option.getD] <;>
      rw [lookupKey_dictInsert_self] <;>
      simp [dictInsert, String.intercalate, String.intercalate.go,
        String.append_assoc] <;>
      exact margins_render _ _ _
  · intro d
    unfold Document.set_margins
    rw [lookupKey_dictInsert_self]
    decide

/-- Claim C7: a rule registered with no bounds and no trim renders as the
full-width `\midrule`; explicit bounds render as a `\cmidrule` whose printed
range is the Python-slice resolution of the bounds against the column count,
as `start+1` (1-based inclusive) to `end` (exclusive, unchanged); on a
4-column grid, bounds `(1, 3)` render the range `2-3`. -/
theorem c7_rule_rendering :
    (∀ n : Nat, Tabular.build_rule n none none "" = "\\midrule")
      ∧ (∀ (n : Nat) (s e : Int),
          Tabular.build_rule n (some s) (some e) ""
            = "\\cmidrule" ++ "\x7b"
              ++ toString ((if s < 0 then max (s + n) 0 else min s n) + 1)
              ++ "-" ++ toString (if e < 0 then max (e + n) 0 else min e n)
              ++ "\x7d")
      ∧ Tabular.build_rule 4 (some 1) (some 3) "" = "\\cmidrule\x7b2-3\x7d" := by
  refine ⟨fun n => ?_, fun n s e => ?_, by decide⟩
  · simp [Tabular.build_rule]
  · simp [Tabular.build_rule, sliceIndices, sliceResolve]

/-- Claim C8: at `Tabular.build` time every float cell is formatted with the
configured float format (`1.5` under `.2f` becomes `1.50`), every non-float
cell is plainly stringified (the integer `2` becomes `2`), and each row's
formatted cells are joined by `' & '` and terminated by `\\`, in row order. -/
theorem c8_cell_formatting (t : Tabular) (hr : t.rules = []) :
    Tabular.build t
        = String.intercalate "\n"
            ((t.head ++ "\x7b" ++ String.mk (List.replicate t.shape.2 'c')
                ++ "\x7d\n\\toprule")
              :: (t.body
                ++ t.data.map (fun row =>
                    String.intercalate " & "
                      (row.map (formatCell t.float_format)) ++ "\\\\")
                ++ ["\\bottomrule\n" ++ t.tail]))
      ∧ formatCell ".2f" (Cell.pfloat 3 (-1)) = "1.50"
      ∧ formatCell ".2f" (Cell.pint 2) = "2" := by
  refine ⟨?_, by decide, by decide⟩
  simp only [Tabular.build]
  rw [hr, tabularRowLines_no_rules _ _ 0, List.map_map]
  rfl

/-- Claim C8 witness: the (2,2) grid `[[1.5, 2], ["A", "B"]]` under format
`.2f` (floats as dyadic rationals, `1.5 = 3 * 2 ^ (-1)`). -/
theorem c8_witness :
    Tabular.build sampleTab
        = String.intercalate "\n"
            ((sampleTab.head ++ "\x7b"
                ++ String.mk (List.replicate sampleTab.shape.2 'c')
                ++ "\x7d\n\\toprule")
              :: (sampleTab.body
                ++ sampleTab.data.map (fun row =>
                    String.intercalate " & "
                      (row.map (formatCell sampleTab.float_format)) ++ "\\\\")
                ++ ["\\bottomrule\n" ++ sampleTab.tail]))
      ∧ formatCell ".2f" (Cell.pfloat 3 (-1)) = "1.50"
      ∧ formatCell ".2f" (Cell.pint 2) = "2" :=
  c8_cell_formatting sampleTab rfl

/-- Claim C9: calling `build()` a second time on the state left behind by the
first call (only the `packages` maps changed; every render-relevant attribute
is untouched) produces the same textual output as the first call. -/
theorem c9_build_idempotent_output (d : EnvData) (body : List TexNode) :
    (TexEnvironment.build (TexEnvironment.build d body).2.1
        (TexEnvironment.build d body).2.2).1
      = (TexEnvironment.build d body).1 := by
  show String.intercalate "\n"
      (buildEnvParts (buildEnvParts d body).2.1 (buildEnvParts d body).2.2).1
    = String.intercalate "\n" (buildEnvParts d body).1
  rw [buildEnvParts_snd_fst d body, buildEnvParts_snd_snd d body,
    buildEnvParts_fst_packages d
      (List.foldl dictUpdate d.packages (buildList body).2.2)
      (buildList body).2.1,
    buildEnvParts_eq d ((buildList body).2.1), buildEnvParts_eq d body]
  dsimp only
  rw [buildList_fst_stable (sizeOf body) body (Nat.le_refl _)]

/-- Claim C10: `tex_base.TexObject.add_package` is total and stores, for the
given name, exactly the uninspected option payload
(`kwoptions` updated with each positional option mapped to `''`); but
`document.py`'s `Document.add_package` raises `AttributeError` (it calls
`.append` on a string) as soon as any keyword option is passed, so the
no-raise contract does not hold there. -/
theorem c10_add_package :
    (∀ (d : EnvData) (p : String) (opts : List String)
        (kw : List (String × String)),
        lookupKey p (TexObject.add_package d p opts kw).packages
          = some (dictUpdate kw (opts.map (fun o => (o, "")))))
      ∧ Document.add_package sampleDoc "geometry" [] [("margin", "2cm")]
          = Except.error "AttributeError: str object has no attribute append" := by
  constructor
  · intro d p opts kw
    unfold TexObject.add_package
    exact lookupKey_dictInsert_self d.packages p _
  · simp [Document.add_package]
